import Mathlib

/-!
Verification of the gamepad-mapper translation engine
(`src/hooks/useGamepadMapping.ts`, `src/utils/stickDirection.ts`,
`src/constants/defaults.ts`) against its natural-language specification.

TypeScript numbers are modelled as rationals (`ℚ`), JavaScript `Map` /
`Set` state as functions `String → Option Bool` / `Finset String`, and the
asynchronous actuation capability as an explicit outcome parameter that the
translated code receives but (as in the source, whose catch blocks only
log) never branches on when updating state.
-/

/-- `src/constants/defaults.ts`: `DEFAULT_STICK_THRESHOLD = 0.5`. -/
def DEFAULT_STICK_THRESHOLD : ℚ := 1/2

/-- `src/constants/defaults.ts`: `DEFAULT_MOUSE_SENSITIVITY = 1.0`. -/
def DEFAULT_MOUSE_SENSITIVITY : ℚ := 1

/-- `src/constants/defaults.ts`: `DEFAULT_MOUSE_ACCELERATION = 1.0`. -/
def DEFAULT_MOUSE_ACCELERATION : ℚ := 1

/-- `src/constants/defaults.ts`: `DEFAULT_MOUSE_INVERT_X = false`. -/
def DEFAULT_MOUSE_INVERT_X : Bool := false

/-- `src/constants/defaults.ts`: `DEFAULT_MOUSE_INVERT_Y = false`. -/
def DEFAULT_MOUSE_INVERT_Y : Bool := false

/-- JavaScript `Math.abs` on the rational model of TS numbers. -/
def ratAbs (q : ℚ) : ℚ := if q < 0 then -q else q

theorem ratAbs_eq_abs (q : ℚ) : ratAbs q = |q| := by
  unfold ratAbs
  rcases lt_or_le q 0 with h | h
  · rw [if_pos h, abs_of_neg h]
  · rw [if_neg (not_lt.mpr h), abs_of_nonneg h]

/-- The eight stick directions of `type StickDirection` in
`src/hooks/useGamepadMapping.ts`. -/
inductive StickDirection where
  | up
  | down
  | left
  | right
  | upLeft
  | upRight
  | downLeft
  | downRight
deriving DecidableEq, Repr

/-- `getStickDirection` from `src/utils/stickDirection.ts`: classify a stick
deflection `(x, y)` against `threshold`, returning `none` inside the
deadzone and otherwise the direction determined by the four per-axis
comparisons, diagonals first. -/
def getStickDirection (x y threshold : ℚ) : Option StickDirection :=
  let absX := ratAbs x
  let absY := ratAbs y
  if absX < threshold ∧ absY < threshold then
    none
  else
    let isUp := y < -threshold
    let isDown := y > threshold
    let isLeft := x < -threshold
    let isRight := x > threshold
    if isUp ∧ isLeft then some .upLeft
    else if isUp ∧ isRight then some .upRight
    else if isDown ∧ isLeft then some .downLeft
    else if isDown ∧ isRight then some .downRight
    else if isUp then some .up
    else if isDown then some .down
    else if isLeft then some .left
    else if isRight then some .right
    else none

/-- Whether a classification result carries an `up` vertical component. -/
def hasUp : Option StickDirection → Bool
  | some .up | some .upLeft | some .upRight => true
  | _ => false

/-- Whether a classification result carries a `down` vertical component. -/
def hasDown : Option StickDirection → Bool
  | some .down | some .downLeft | some .downRight => true
  | _ => false

/-- Whether a classification result carries a `left` horizontal component. -/
def hasLeft : Option StickDirection → Bool
  | some .left | some .upLeft | some .downLeft => true
  | _ => false

/-- Whether a classification result carries a `right` horizontal component. -/
def hasRight : Option StickDirection → Bool
  | some .right | some .upRight | some .downRight => true
  | _ => false

/-- C3: `getStickDirection` is a pure function with: `none` inside the
deadzone (`|x| < t` and `|y| < t`), and otherwise the result's vertical
component is `up` iff `y < -t`, `down` iff `y > t`, and its horizontal
component is `left` iff `x < -t`, `right` iff `x > t` (so a diagonal is
returned exactly when one vertical and one horizontal condition both hold);
in particular `classifyStick(0.5, 0.5, 0.3) = down-right` and
`classifyStick(0.05, 0.05, 0.3) = none`. -/
theorem c3_classifier_correct (x y t : ℚ)
    (hx1 : -1 ≤ x) (hx2 : x ≤ 1) (hy1 : -1 ≤ y) (hy2 : y ≤ 1)
    (ht0 : 0 < t) (ht1 : t < 1) :
    ((|x| < t ∧ |y| < t) → getStickDirection x y t = none) ∧
    (¬(|x| < t ∧ |y| < t) →
      (hasUp (getStickDirection x y t) = true ↔ y < -t) ∧
      (hasDown (getStickDirection x y t) = true ↔ y > t) ∧
      (hasLeft (getStickDirection x y t) = true ↔ x < -t) ∧
      (hasRight (getStickDirection x y t) = true ↔ x > t)) ∧
    getStickDirection (1/2) (1/2) (3/10) = some .downRight ∧
    getStickDirection (1/20) (1/20) (3/10) = none := by
  refine ⟨?_, ?_, by norm_num [getStickDirection, ratAbs], by norm_num [getStickDirection, ratAbs]⟩
  · intro h
    rw [← ratAbs_eq_abs, ← ratAbs_eq_abs] at h
    simp [getStickDirection, h]
  · intro h
    rw [← ratAbs_eq_abs, ← ratAbs_eq_abs] at h
    simp only [getStickDirection, if_neg h]
    split_ifs <;>
      refine ⟨?_, ?_, ?_, ?_⟩ <;>
      constructor <;>
      intro hc <;>
      simp_all [hasUp, hasDown, hasLeft, hasRight] <;>
      linarith

/-- Witness for `c3_classifier_correct` at `x = 1/2`, `y = 1/2`,
`t = 3/10`. -/
theorem c3_classifier_correct_witness :
    ¬((|(1/2 : ℚ)| < 3/10 ∧ |(1/2 : ℚ)| < 3/10)) ∧
    (hasDown (getStickDirection (1/2) (1/2) (3/10)) = true ↔ ((1/2 : ℚ) > 3/10)) := by
  have h := c3_classifier_correct (1/2) (1/2) (3/10)
    (by norm_num) (by norm_num) (by norm_num) (by norm_num) (by norm_num) (by norm_num)
  exact ⟨by rw [abs_of_nonneg (by norm_num : (0:ℚ) ≤ 1/2)]; norm_num,
    (h.2.1 (by rw [abs_of_nonneg (by norm_num : (0:ℚ) ≤ 1/2)]; norm_num)).2.1⟩

/-- A physical actuation call dispatched by `simulateKeyPress`: a
`keyToggle(key, down)` (or `buttonToggle` when the key names a mouse
button) via the Electron IPC bridge. -/
structure PhysCall where
  key : String
  down : Bool
deriving DecidableEq, Repr

/-- Outcome of one awaited simulator call: resolved successfully, resolved
with `{success: false, error}` carrying a message, or rejected/thrown. -/
inductive CallOutcome where
  | ok
  | errorResult (msg : String)
  | exn
deriving DecidableEq, Repr

/-- Console diagnostics produced by `simulateKeyPress`'s error handling. -/
inductive LogEntry where
  | simError (msg : String)
  | permissionsHint
  | pressException
  | releaseException
deriving DecidableEq, Repr

/-- The mutable refs of `useGamepadMapping` read and written by
`simulateKeyPress`: `previousButtonStatesRef`, `previousAxisStatesRef`
(JavaScript `Map<string, boolean>`, modelled as `String → Option Bool`) and
`keyHoldersRef` (`Map<string, Set<string>>`; a key absent from the map and
a key mapped to an empty set are observationally equal, so both are
modelled as `∅`). -/
structure ActuatorState where
  prevButton : String → Option Bool
  prevAxis : String → Option Bool
  holders : String → Finset String

/-- The refs start out as empty maps. -/
def initActuatorState : ActuatorState :=
  { prevButton := fun _ => none, prevAxis := fun _ => none, holders := fun _ => ∅ }

/-- JavaScript `s.startsWith(p)` modelled on the character list. -/
def strStartsWith (s p : String) : Bool := s.data.take p.data.length == p.data

/-- JavaScript `s.includes(p)` modelled on the character list. -/
def strContains (s p : String) : Bool :=
  (List.range (s.data.length + 1)).any fun i => (s.data.drop i).take p.data.length == p.data

/-- `previousButtonStatesRef.current.get(stateKey) ??
previousAxisStatesRef.current.get(stateKey)` from `simulateKeyPress`. -/
def prevLookup (s : ActuatorState) (stateKey : String) : Option Bool :=
  (s.prevButton stateKey).orElse fun _ => s.prevAxis stateKey

/-- Result of one `simulateKeyPress` call (or of a batch of them): the
updated refs, the physical calls dispatched, and the console diagnostics. -/
structure SimResult where
  state : ActuatorState
  calls : List PhysCall
  logs : List LogEntry

/-- Diagnostics of the press (`releasing = false`) or release
(`releasing = true`) dispatch path of `simulateKeyPress`: an error result
logs the message (plus a prominent hint when it mentions accessibility
permissions), a rejection is caught and logged; nothing else happens on
either path. -/
def dispatchLogs (releasing : Bool) : CallOutcome → List LogEntry
  | .ok => []
  | .errorResult msg =>
      .simError msg ::
        (if strContains msg "Accessibility permissions" then [.permissionsHint] else [])
  | .exn => if releasing then [.releaseException] else [.pressException]

/-- `simulateKeyPress(key, pressed, stateKey)` from
`src/hooks/useGamepadMapping.ts` (lines 375–475). `outcome` is the
eventual result of the one awaited simulator call this invocation
dispatches, if any; the source's `catch`/error branches only write to the
console, so the refs and the dispatched call never depend on it. Both
simulators are taken to be available (the `!window.keySimulator` /
`!window.mouseSimulator` early returns model a degenerate environment and
occur after all ref updates). -/
def simulateKeyPress (s : ActuatorState) (key : String) (pressed : Bool)
    (stateKey : String) (outcome : CallOutcome) : SimResult :=
  if prevLookup s stateKey = some pressed then
    ⟨s, [], []⟩
  else
    let s1 :=
      if strStartsWith stateKey "button-" then
        { s with prevButton := fun k => if k = stateKey then some pressed else s.prevButton k }
      else
        { s with prevAxis := fun k => if k = stateKey then some pressed else s.prevAxis k }
    let holders := s1.holders key
    let wasPressed := 0 < holders.card
    if pressed then
      let s2 := { s1 with
        holders := fun k => if k = key then insert stateKey holders else s1.holders k }
      if ¬wasPressed then
        ⟨s2, [⟨key, true⟩], dispatchLogs false outcome⟩
      else
        ⟨s2, [], []⟩
    else
      let holders1 := holders.erase stateKey
      let s2 := { s1 with
        holders := fun k => if k = key then holders1 else s1.holders k }
      if wasPressed ∧ holders1.card = 0 then
        ⟨s2, [⟨key, false⟩], dispatchLogs true outcome⟩
      else
        ⟨s2, [], []⟩

/-- One frame's report for one logical state key, together with the
outcome of whatever call it dispatches. -/
structure Report where
  key : String
  pressed : Bool
  stateKey : String
  outcome : CallOutcome

/-- Run a sequence of `simulateKeyPress` calls, concatenating the
dispatched physical calls and diagnostics in order. -/
def runReports (s : ActuatorState) : List Report → SimResult
  | [] => ⟨s, [], []⟩
  | r :: rs =>
    let a := simulateKeyPress s r.key r.pressed r.stateKey r.outcome
    let b := runReports a.state rs
    ⟨b.state, a.calls ++ b.calls, a.logs ++ b.logs⟩

/-- Number of physical press calls for `key` in a call list. -/
def pressCount (key : String) (cs : List PhysCall) : Nat :=
  (cs.filter fun c => c.key == key && c.down).length

/-- Number of physical release calls for `key` in a call list. -/
def releaseCount (key : String) (cs : List PhysCall) : Nat :=
  (cs.filter fun c => c.key == key && !c.down).length


theorem simulateKeyPress_holders (s : ActuatorState) (key : String) (pressed : Bool)
    (stateKey : String) (outcome : CallOutcome) (k : String) :
    (simulateKeyPress s key pressed stateKey outcome).state.holders k =
      if prevLookup s stateKey = some pressed then s.holders k
      else if k = key then
        (if pressed then insert stateKey (s.holders key) else (s.holders key).erase stateKey)
      else s.holders k := by
  cases pressed <;>
    simp only [simulateKeyPress] <;>
    split_ifs <;>
    simp_all

theorem simulateKeyPress_calls (s : ActuatorState) (key : String) (pressed : Bool)
    (stateKey : String) (outcome : CallOutcome) :
    (simulateKeyPress s key pressed stateKey outcome).calls =
      if prevLookup s stateKey = some pressed then []
      else if pressed then
        (if s.holders key = ∅ then [⟨key, true⟩] else [])
      else
        (if s.holders key ≠ ∅ ∧ (s.holders key).erase stateKey = ∅ then [⟨key, false⟩]
         else []) := by
  cases pressed <;>
    simp only [simulateKeyPress] <;>
    split_ifs <;>
    simp_all [Finset.nonempty_iff_ne_empty, Finset.card_eq_zero, Finset.card_pos]

def ActuatorWF (s : ActuatorState) : Prop :=
  ∀ k, strStartsWith k "button-" = false → s.prevButton k = none

theorem initActuatorState_wf : ActuatorWF initActuatorState := by
  intro k _
  rfl

theorem simulateKeyPress_wf (s : ActuatorState) (key : String) (pressed : Bool)
    (stateKey : String) (outcome : CallOutcome) (hwf : ActuatorWF s) :
    ActuatorWF (simulateKeyPress s key pressed stateKey outcome).state := by
  intro k hk
  have h0 := hwf k hk
  cases pressed <;>
    simp only [simulateKeyPress] <;>
    split_ifs <;>
    simp_all <;>
    by_cases hks : k = stateKey <;>
    simp_all

theorem simulateKeyPress_prevLookup (s : ActuatorState) (key : String) (pressed : Bool)
    (stateKey : String) (outcome : CallOutcome) (k : String) (hwf : ActuatorWF s) :
    prevLookup (simulateKeyPress s key pressed stateKey outcome).state k =
      if k = stateKey then some pressed else prevLookup s k := by
  cases pressed <;>
    simp only [simulateKeyPress] <;>
    split_ifs <;>
    by_cases hks : k = stateKey <;>
    simp_all [prevLookup, Option.orElse] <;>
    (try subst hks) <;>
    simp_all [ActuatorWF]

theorem prevLookup_init (z : String) : prevLookup initActuatorState z = none := rfl

theorem holders_init (z : String) : initActuatorState.holders z = ∅ := rfl

theorem pressCount_nil (k : String) : pressCount k [] = 0 := rfl

theorem releaseCount_nil (k : String) : releaseCount k [] = 0 := rfl

theorem pressCount_append (k : String) (l1 l2 : List PhysCall) :
    pressCount k (l1 ++ l2) = pressCount k l1 + pressCount k l2 := by
  simp [pressCount, List.filter_append]

theorem releaseCount_append (k : String) (l1 l2 : List PhysCall) :
    releaseCount k (l1 ++ l2) = releaseCount k l1 + releaseCount k l2 := by
  simp [releaseCount, List.filter_append]

theorem pressCount_single (k key : String) (d : Bool) :
    pressCount k [⟨key, d⟩] = if key = k ∧ d = true then 1 else 0 := by
  by_cases h : key = k
  · cases d <;> simp [pressCount, List.filter, h]
  · have h' : (key == k) = false := by simp [h]
    cases d <;> simp [pressCount, List.filter, h, h']

theorem releaseCount_single (k key : String) (d : Bool) :
    releaseCount k [⟨key, d⟩] = if key = k ∧ d = false then 1 else 0 := by
  by_cases h : key = k
  · cases d <;> simp [releaseCount, List.filter, h]
  · have h' : (key == k) = false := by simp [h]
    cases d <;> simp [releaseCount, List.filter, h, h']

theorem simulateKeyPress_balance (s : ActuatorState) (key : String) (pressed : Bool)
    (stateKey : String) (outcome : CallOutcome) (k : String) :
    pressCount k (simulateKeyPress s key pressed stateKey outcome).calls
      + (if s.holders k = ∅ then 0 else 1)
    = releaseCount k (simulateKeyPress s key pressed stateKey outcome).calls
      + (if (simulateKeyPress s key pressed stateKey outcome).state.holders k = ∅ then 0 else 1) := by
  rw [simulateKeyPress_calls, simulateKeyPress_holders s key pressed stateKey outcome k]
  split_ifs <;>
    simp_all [pressCount_single, releaseCount_single, pressCount_nil, releaseCount_nil,
      Finset.insert_ne_empty, Finset.erase_empty, ne_comm]

theorem runReports_balance (rs : List Report) (s : ActuatorState) (k : String) :
    pressCount k (runReports s rs).calls + (if s.holders k = ∅ then 0 else 1)
    = releaseCount k (runReports s rs).calls
      + (if (runReports s rs).state.holders k = ∅ then 0 else 1) := by
  induction rs generalizing s with
  | nil => rfl
  | cons r rs ih =>
    have h1 := simulateKeyPress_balance s r.key r.pressed r.stateKey r.outcome k
    have h2 := ih (simulateKeyPress s r.key r.pressed r.stateKey r.outcome).state
    simp only [runReports, pressCount_append, releaseCount_append]
    omega

theorem simulateKeyPress_noop (s : ActuatorState) (key : String) (pressed : Bool)
    (stateKey : String) (outcome : CallOutcome)
    (h : prevLookup s stateKey = some pressed) :
    simulateKeyPress s key pressed stateKey outcome = ⟨s, [], []⟩ := by
  simp [simulateKeyPress, h]

theorem runReports_append (s : ActuatorState) (rs1 rs2 : List Report) :
    runReports s (rs1 ++ rs2) =
      ⟨(runReports (runReports s rs1).state rs2).state,
       (runReports s rs1).calls ++ (runReports (runReports s rs1).state rs2).calls,
       (runReports s rs1).logs ++ (runReports (runReports s rs1).state rs2).logs⟩ := by
  induction rs1 generalizing s with
  | nil => simp [runReports]
  | cons r rs ih => simp [runReports, ih]

theorem runReports_noop_replicate (s : ActuatorState) (r : Report)
    (h : simulateKeyPress s r.key r.pressed r.stateKey r.outcome = ⟨s, [], []⟩)
    (m : ℕ) :
    runReports s (List.replicate m r) = ⟨s, [], []⟩ := by
  induction m with
  | zero => rfl
  | succ n ih => simp [List.replicate_succ, runReports, h, ih]

theorem erase_pair_left (a b : String) (hab : a ≠ b) :
    ({b, a} : Finset String).erase a = {b} := by
  rw [Finset.erase_insert_of_ne (Ne.symm hab), Finset.erase_singleton]
  simp

theorem erase_pair_right (a b : String) (hab : a ≠ b) :
    ({b, a} : Finset String).erase b = {a} := by
  refine Finset.erase_insert ?_
  simp only [Finset.mem_singleton]
  exact Ne.symm hab

theorem runScenario (u v w1 w2 : String) (huv : u ≠ v)
    (hw : (w1 = u ∧ w2 = v) ∨ (w1 = v ∧ w2 = u)) :
    (runReports initActuatorState
      [⟨"Space", true, u, .ok⟩, ⟨"Space", true, v, .ok⟩,
       ⟨"Space", false, w1, .ok⟩]).state.holders "Space" ≠ ∅ ∧
    (runReports initActuatorState
      [⟨"Space", true, u, .ok⟩, ⟨"Space", true, v, .ok⟩,
       ⟨"Space", false, w1, .ok⟩, ⟨"Space", false, w2, .ok⟩]).calls
      = [⟨"Space", true⟩, ⟨"Space", false⟩] := by
  have wf0 : ActuatorWF initActuatorState := initActuatorState_wf
  set r1 := simulateKeyPress initActuatorState "Space" true u .ok with hr1
  have wf1 : ActuatorWF r1.state := simulateKeyPress_wf _ _ _ _ _ wf0
  have pl1 : ∀ z, prevLookup r1.state z = if z = u then some true else none := by
    intro z
    rw [hr1, simulateKeyPress_prevLookup _ _ _ _ _ _ wf0, prevLookup_init]
  have hold1 : ∀ z, r1.state.holders z = if z = "Space" then {u} else ∅ := by
    intro z
    rw [hr1, simulateKeyPress_holders]
    simp [prevLookup_init, holders_init]
  have calls1 : r1.calls = [⟨"Space", true⟩] := by
    rw [hr1, simulateKeyPress_calls]
    simp [prevLookup_init, holders_init]
  set r2 := simulateKeyPress r1.state "Space" true v .ok with hr2
  have wf2 : ActuatorWF r2.state := simulateKeyPress_wf _ _ _ _ _ wf1
  have pl2 : ∀ z, prevLookup r2.state z =
      if z = v then some true else if z = u then some true else none := by
    intro z
    rw [hr2, simulateKeyPress_prevLookup _ _ _ _ _ _ wf1, pl1]
  have hold2 : ∀ z, r2.state.holders z = if z = "Space" then {v, u} else ∅ := by
    intro z
    rw [hr2, simulateKeyPress_holders]
    simp only [pl1, if_neg (Ne.symm huv), hold1]
    split_ifs <;> simp_all
  have calls2 : r2.calls = [] := by
    rw [hr2, simulateKeyPress_calls]
    simp [pl1, huv.symm, hold1]
  set r3 := simulateKeyPress r2.state "Space" false w1 .ok with hr3
  have wf3 : ActuatorWF r3.state := simulateKeyPress_wf _ _ _ _ _ wf2
  have plw1 : prevLookup r2.state w1 = some true := by
    rcases hw with ⟨h1, _⟩ | ⟨h1, _⟩ <;> subst h1 <;> simp [pl2]
  have hold3 : r3.state.holders "Space" = ({v, u} : Finset String).erase w1 := by
    rw [hr3, simulateKeyPress_holders]
    simp [plw1, hold2]
  have erase3 : ({v, u} : Finset String).erase w1 = (if w1 = u then {v} else {u}) := by
    rcases hw with ⟨h1, _⟩ | ⟨h1, _⟩ <;> subst h1
    · rw [if_pos rfl]
      exact erase_pair_left w1 v huv
    · rw [if_neg (Ne.symm huv)]
      exact erase_pair_right u w1 huv
  have calls3 : r3.calls = [] := by
    rw [hr3, simulateKeyPress_calls]
    rw [plw1]
    have hne : ({v, u} : Finset String) ≠ ∅ := by simp
    have hee : ({v, u} : Finset String).erase w1 ≠ ∅ := by
      rw [erase3]
      split_ifs <;> simp
    simp [hold2, plw1, hee]
  have pl3 : ∀ z, prevLookup r3.state z =
      if z = w1 then some false else prevLookup r2.state z := by
    intro z
    rw [hr3, simulateKeyPress_prevLookup _ _ _ _ _ _ wf2]
  set r4 := simulateKeyPress r3.state "Space" false w2 .ok with hr4
  have plw2 : prevLookup r3.state w2 = some true := by
    have hww : w2 ≠ w1 := by
      rcases hw with ⟨h1, h2⟩ | ⟨h1, h2⟩ <;> subst h1 <;> subst h2
      · exact huv.symm
      · exact huv
    rw [pl3, if_neg hww]
    rcases hw with ⟨_, h2⟩ | ⟨_, h2⟩ <;> subst h2 <;> simp [pl2]
  have calls4 : r4.calls = [⟨"Space", false⟩] := by
    rw [hr4, simulateKeyPress_calls]
    rw [plw2]
    have h1 : r3.state.holders "Space" ≠ ∅ := by
      rw [hold3, erase3]
      split_ifs <;> simp
    have h2 : (r3.state.holders "Space").erase w2 = ∅ := by
      rw [hold3, erase3]
      rcases hw with ⟨ha, hb⟩ | ⟨ha, hb⟩ <;> subst ha <;> subst hb <;>
        split_ifs <;> simp_all
    simp [h1, h2]
  constructor
  · show (runReports initActuatorState _).state.holders "Space" ≠ ∅
    simp only [runReports, ← hr1, ← hr2, ← hr3]
    rw [hold3, erase3]
    split_ifs <;> simp
  · simp only [runReports, ← hr1, ← hr2, ← hr3, ← hr4]
    rw [calls1, calls2, calls3, calls4]
    rfl

/-- C1: over every sequence of `simulateKeyPress` reports from the initial
refs, for every actuation key the number of physical press calls never
exceeds the number of release calls by more than one; a press is dispatched
exactly on a non-no-op rising edge whose holder set was empty (and becomes
non-empty by the insert), a release exactly on a falling edge that empties
a non-empty holder set; and in the two-holders-of-"Space" scenario —
activate both logical state keys, deactivate one (key stays held),
deactivate the other — exactly one press and one release are issued in
total, for either activation order and either deactivation order. -/
theorem c1_holder_reference_counting
    (rs : List Report) (k : String)
    (a b x1 x2 y1 y2 : String) (hab : a ≠ b)
    (hx : (x1 = a ∧ x2 = b) ∨ (x1 = b ∧ x2 = a))
    (hy : (y1 = a ∧ y2 = b) ∨ (y1 = b ∧ y2 = a)) :
    (pressCount k (runReports initActuatorState rs).calls
      ≤ releaseCount k (runReports initActuatorState rs).calls + 1) ∧
    (∀ s key pressed stateKey outcome,
      (simulateKeyPress s key pressed stateKey outcome).calls =
        if prevLookup s stateKey = some pressed then []
        else if pressed then
          (if s.holders key = ∅ then [⟨key, true⟩] else [])
        else
          (if s.holders key ≠ ∅ ∧ (s.holders key).erase stateKey = ∅ then [⟨key, false⟩]
           else [])) ∧
    ((runReports initActuatorState
        [⟨"Space", true, x1, .ok⟩, ⟨"Space", true, x2, .ok⟩,
         ⟨"Space", false, y1, .ok⟩]).state.holders "Space" ≠ ∅ ∧
     (runReports initActuatorState
        [⟨"Space", true, x1, .ok⟩, ⟨"Space", true, x2, .ok⟩,
         ⟨"Space", false, y1, .ok⟩, ⟨"Space", false, y2, .ok⟩]).calls
        = [⟨"Space", true⟩, ⟨"Space", false⟩]) := by
  refine ⟨?_, simulateKeyPress_calls, ?_⟩
  · have hb := runReports_balance rs initActuatorState k
    rw [holders_init] at hb
    by_cases hE : (runReports initActuatorState rs).state.holders k = ∅ <;>
      simp [hE] at hb <;> omega
  · rcases hx with ⟨hx1, hx2⟩ | ⟨hx1, hx2⟩ <;>
      rcases hy with ⟨hy1, hy2⟩ | ⟨hy1, hy2⟩ <;>
      subst_vars <;>
      first
        | exact runScenario _ _ _ _ hab (Or.inl ⟨rfl, rfl⟩)
        | exact runScenario _ _ _ _ hab (Or.inr ⟨rfl, rfl⟩)
        | exact runScenario _ _ _ _ hab.symm (Or.inl ⟨rfl, rfl⟩)
        | exact runScenario _ _ _ _ hab.symm (Or.inr ⟨rfl, rfl⟩)

/-- Witness for `c1_holder_reference_counting` at the empty trace and
logical state keys `"lsk1"`, `"lsk2"`. -/
theorem c1_holder_reference_counting_witness :
    (pressCount "Space" (runReports initActuatorState []).calls
      ≤ releaseCount "Space" (runReports initActuatorState []).calls + 1) ∧
    (∀ s key pressed stateKey outcome,
      (simulateKeyPress s key pressed stateKey outcome).calls =
        if prevLookup s stateKey = some pressed then []
        else if pressed then
          (if s.holders key = ∅ then [⟨key, true⟩] else [])
        else
          (if s.holders key ≠ ∅ ∧ (s.holders key).erase stateKey = ∅ then [⟨key, false⟩]
           else [])) ∧
    ((runReports initActuatorState
        [⟨"Space", true, "lsk1", .ok⟩, ⟨"Space", true, "lsk2", .ok⟩,
         ⟨"Space", false, "lsk1", .ok⟩]).state.holders "Space" ≠ ∅ ∧
     (runReports initActuatorState
        [⟨"Space", true, "lsk1", .ok⟩, ⟨"Space", true, "lsk2", .ok⟩,
         ⟨"Space", false, "lsk1", .ok⟩, ⟨"Space", false, "lsk2", .ok⟩]).calls
        = [⟨"Space", true⟩, ⟨"Space", false⟩]) :=
  c1_holder_reference_counting [] "Space" "lsk1" "lsk2" "lsk1" "lsk2" "lsk1" "lsk2"
    (by decide) (Or.inl ⟨rfl, rfl⟩) (Or.inl ⟨rfl, rfl⟩)

/-- C5: `simulateKeyPress` is a no-op — identical refs, zero physical
calls, zero diagnostics — whenever the reported boolean equals the
recorded previous activity for the logical state key; consequently
holding a button across `n ≥ 1` identical frames followed by one release
frame dispatches exactly one press and then one release. -/
theorem c5_edge_triggered
    (key sk : String) (n : ℕ) (o o2 : CallOutcome) (hn : 1 ≤ n) :
    (∀ s k2 pressed stateKey outcome, prevLookup s stateKey = some pressed →
      simulateKeyPress s k2 pressed stateKey outcome = ⟨s, [], []⟩) ∧
    (runReports initActuatorState
        (List.replicate n ⟨key, true, sk, o⟩ ++ [⟨key, false, sk, o2⟩])).calls
      = [⟨key, true⟩, ⟨key, false⟩] := by
  refine ⟨simulateKeyPress_noop, ?_⟩
  obtain ⟨m, rfl⟩ : ∃ m, n = m + 1 := ⟨n - 1, by omega⟩
  have wf0 : ActuatorWF initActuatorState := initActuatorState_wf
  set r1 := simulateKeyPress initActuatorState key true sk o with hr1
  have wf1 : ActuatorWF r1.state := simulateKeyPress_wf _ _ _ _ _ wf0
  have calls1 : r1.calls = [⟨key, true⟩] := by
    rw [hr1, simulateKeyPress_calls]
    simp [prevLookup_init, holders_init]
  have pl1 : prevLookup r1.state sk = some true := by
    rw [hr1, simulateKeyPress_prevLookup _ _ _ _ _ _ wf0]
    simp
  have hold1 : r1.state.holders key = {sk} := by
    rw [hr1, simulateKeyPress_holders]
    simp [prevLookup_init, holders_init]
  have hnoop : simulateKeyPress r1.state key true sk o = ⟨r1.state, [], []⟩ :=
    simulateKeyPress_noop _ _ _ _ _ pl1
  have hrep : runReports r1.state (List.replicate m ⟨key, true, sk, o⟩) = ⟨r1.state, [], []⟩ :=
    runReports_noop_replicate r1.state ⟨key, true, sk, o⟩ hnoop m
  set r4 := simulateKeyPress r1.state key false sk o2 with hr4
  have calls4 : r4.calls = [⟨key, false⟩] := by
    rw [hr4, simulateKeyPress_calls, pl1]
    simp [hold1]
  rw [List.replicate_succ]
  simp only [List.cons_append, runReports, ← hr1]
  simp only [List.append_eq]
  rw [runReports_append, hrep]
  simp only [runReports, ← hr4]
  rw [calls1, calls4]
  rfl

/-- Witness for `c5_edge_triggered` with 100 held frames of button 3. -/
theorem c5_edge_triggered_witness :
    (∀ s k2 pressed stateKey outcome, prevLookup s stateKey = some pressed →
      simulateKeyPress s k2 pressed stateKey outcome = ⟨s, [], []⟩) ∧
    (runReports initActuatorState
        (List.replicate 100 ⟨"A", true, "gamepad-0-button-3", .ok⟩
          ++ [⟨"A", false, "gamepad-0-button-3", .ok⟩])).calls
      = [⟨"A", true⟩, ⟨"A", false⟩] :=
  c5_edge_triggered "A" "gamepad-0-button-3" 100 .ok .ok (by norm_num)

set_option maxHeartbeats 1000000 in
theorem simulateKeyPress_state_outcome (s : ActuatorState) (key : String) (pressed : Bool)
    (stateKey : String) (o o' : CallOutcome) :
    (simulateKeyPress s key pressed stateKey o).state
      = (simulateKeyPress s key pressed stateKey o').state := by
  cases pressed <;> simp only [simulateKeyPress] <;> split_ifs <;> rfl

/-- C9: the refs and the dispatched calls of `simulateKeyPress` are
identical for every call outcome (an error result or a rejection is only
logged — no rollback of the holder set or of the recorded previous
activity), and after a press edge whose actuation failed, the opposite
edge on the same logical state key still dispatches its release call.
The translated step is a total function, so no outcome aborts the frame
loop. -/
theorem c9_actuation_failure_no_rollback
    (s : ActuatorState) (key sk : String) (o o2 : CallOutcome)
    (hwf : ActuatorWF s) (hprev : prevLookup s sk ≠ some true)
    (hempty : s.holders key = ∅) :
    (∀ s2 k2 pressed stateKey o3,
      (simulateKeyPress s2 k2 pressed stateKey o3).state
        = (simulateKeyPress s2 k2 pressed stateKey .ok).state ∧
      (simulateKeyPress s2 k2 pressed stateKey o3).calls
        = (simulateKeyPress s2 k2 pressed stateKey .ok).calls) ∧
    (simulateKeyPress s key true sk o).calls = [⟨key, true⟩] ∧
    (simulateKeyPress (simulateKeyPress s key true sk o).state key false sk o2).calls
      = [⟨key, false⟩] := by
  refine ⟨?_, ?_, ?_⟩
  · intro s2 k2 pressed stateKey o3
    refine ⟨simulateKeyPress_state_outcome s2 k2 pressed stateKey o3 .ok, ?_⟩
    rw [simulateKeyPress_calls, simulateKeyPress_calls]
  · rw [simulateKeyPress_calls]
    simp [hprev, hempty]
  · rw [simulateKeyPress_calls]
    rw [simulateKeyPress_prevLookup _ _ _ _ _ _ hwf]
    rw [simulateKeyPress_holders]
    simp [hprev, hempty]

/-- Witness for `c9_actuation_failure_no_rollback`: a press of `"A"`
whose simulator call reports a permissions error, followed by a release. -/
theorem c9_actuation_failure_no_rollback_witness :
    (∀ s2 k2 pressed stateKey o3,
      (simulateKeyPress s2 k2 pressed stateKey o3).state
        = (simulateKeyPress s2 k2 pressed stateKey .ok).state ∧
      (simulateKeyPress s2 k2 pressed stateKey o3).calls
        = (simulateKeyPress s2 k2 pressed stateKey .ok).calls) ∧
    (simulateKeyPress initActuatorState "A" true "gamepad-0-button-6"
        (.errorResult "Accessibility permissions required")).calls = [⟨"A", true⟩] ∧
    (simulateKeyPress
        (simulateKeyPress initActuatorState "A" true "gamepad-0-button-6"
          (.errorResult "Accessibility permissions required")).state
        "A" false "gamepad-0-button-6" .ok).calls = [⟨"A", false⟩] :=
  c9_actuation_failure_no_rollback initActuatorState "A" "gamepad-0-button-6"
    (.errorResult "Accessibility permissions required") .ok
    initActuatorState_wf (by simp [prevLookup_init]) rfl

/-- `type StickMappingType` from `src/hooks/useGamepadMapping.ts`. -/
inductive StickMappingType where
  | hotkey
  | mouse
deriving DecidableEq, Repr

/-- `src/constants/defaults.ts`: `DEFAULT_STICK_MAPPING_TYPE = 'hotkey'`. -/
def DEFAULT_STICK_MAPPING_TYPE : StickMappingType := .hotkey

/-- `interface ButtonMapping`. -/
structure ButtonMapping where
  buttonIndex : ℕ
  key : String
  label : String
deriving DecidableEq, Repr

/-- `interface AxisMapping`; the optional mouse-control fields are `Option`s
because the hotkey insert path omits them. -/
structure AxisMapping where
  stickIndex : ℕ
  direction : StickDirection
  key : String
  label : String
  threshold : ℚ
  type : StickMappingType
  sensitivity : Option ℚ
  acceleration : Option ℚ
  invertX : Option Bool
  invertY : Option Bool
deriving DecidableEq, Repr

/-- `interface DpadMapping`. -/
structure DpadMapping where
  direction : StickDirection
  key : String
  label : String
deriving DecidableEq, Repr

/-- `interface GamepadMapping`; `dpadMappings?` is an optional field. -/
structure GamepadMapping where
  gamepadIndex : ℕ
  buttonMappings : List ButtonMapping
  axisMappings : List AxisMapping
  dpadMappings : Option (List DpadMapping)
deriving DecidableEq, Repr

/-- JavaScript `array.find(p)` followed by in-place mutation `f` of the found
element: rewrite the first element satisfying `p`, leave the rest alone. -/
def updateFirst (p : α → Bool) (f : α → α) : List α → List α
  | [] => []
  | x :: xs => if p x then f x :: xs else x :: updateFirst p f xs

/-- `getMapping(gamepadIndex)` (lines 117–122): the first stored mapping for
the device index. -/
def getMapping (s : List GamepadMapping) (g : ℕ) : Option GamepadMapping :=
  s.find? fun m => m.gamepadIndex == g

/-- `m.stickIndex === stickIndex && m.type === "mouse"`. -/
def isMouseOf (stickIndex : ℕ) (m : AxisMapping) : Bool :=
  m.stickIndex == stickIndex && m.type == StickMappingType.mouse

/-- `m.stickIndex === stickIndex && m.type === "hotkey"`. -/
def isHotkeyOf (stickIndex : ℕ) (m : AxisMapping) : Bool :=
  m.stickIndex == stickIndex && m.type == StickMappingType.hotkey

/-- The device-level body of `setAxisMapping` (lines 190–245): the
mouse/hotkey update applied to the found (or freshly pushed) mapping. -/
def setAxisOnDevice (stickIndex : ℕ) (direction : StickDirection)
    (key label : String) (threshold : ℚ) (type : StickMappingType)
    (sensitivity acceleration : ℚ) (invertX invertY : Bool)
    (mapping : GamepadMapping) : GamepadMapping :=
  if type = StickMappingType.mouse then
    if (mapping.axisMappings.find? (isMouseOf stickIndex)).isSome then
      { mapping with axisMappings :=
          (updateFirst (isMouseOf stickIndex)
            (fun m => { m with threshold := threshold, sensitivity := some sensitivity,
                               acceleration := some acceleration, invertX := some invertX,
                               invertY := some invertY })
            mapping.axisMappings) }
    else
      { mapping with axisMappings :=
          (mapping.axisMappings.filter fun m => !(isHotkeyOf stickIndex m))
            ++ [⟨stickIndex, .up, "Mouse", "Mouse", threshold, .mouse,
                 some sensitivity, some acceleration, some invertX, some invertY⟩] }
  else
    if (mapping.axisMappings.find? fun m =>
          m.stickIndex == stickIndex && m.direction == direction
            && m.type == StickMappingType.hotkey).isSome then
      { mapping with axisMappings :=
          (updateFirst (fun m =>
              m.stickIndex == stickIndex && m.direction == direction
                && m.type == StickMappingType.hotkey)
            (fun m => { m with key := key, label := label, threshold := threshold })
            mapping.axisMappings) }
    else
      { mapping with axisMappings :=
          (mapping.axisMappings.filter fun m => !(isMouseOf stickIndex m))
            ++ [⟨stickIndex, direction, key, label, threshold, .hotkey,
                 none, none, none, none⟩] }

/-- `setAxisMapping` (lines 162–252): find or create the device's mapping,
then update it in place. -/
def setAxisMapping (prev : List GamepadMapping) (gamepadIndex stickIndex : ℕ)
    (direction : StickDirection) (key label : String) (threshold : ℚ)
    (type : StickMappingType) (sensitivity acceleration : ℚ)
    (invertX invertY : Bool) : List GamepadMapping :=
  if (getMapping prev gamepadIndex).isSome then
    updateFirst (fun m => m.gamepadIndex == gamepadIndex)
      (setAxisOnDevice stickIndex direction key label threshold type
        sensitivity acceleration invertX invertY)
      prev
  else
    prev ++ [setAxisOnDevice stickIndex direction key label threshold type
      sensitivity acceleration invertX invertY ⟨gamepadIndex, [], [], some []⟩]

/-- `removeAxisMapping` (lines 270–284): drop every entry of the device
matching `(stickIndex, direction)` (of either type). -/
def removeAxisMapping (prev : List GamepadMapping) (gamepadIndex stickIndex : ℕ)
    (direction : StickDirection) : List GamepadMapping :=
  updateFirst (fun m => m.gamepadIndex == gamepadIndex)
    (fun mapping => { mapping with axisMappings :=
        (mapping.axisMappings.filter fun m =>
          !(m.stickIndex == stickIndex && m.direction == direction)) })
    prev

/-- An editor operation on the axis mappings. -/
inductive AxisOp where
  | set (gamepadIndex stickIndex : ℕ) (direction : StickDirection)
        (key label : String) (threshold : ℚ) (type : StickMappingType)
        (sensitivity acceleration : ℚ) (invertX invertY : Bool)
  | remove (gamepadIndex stickIndex : ℕ) (direction : StickDirection)

/-- Apply one editor operation. -/
def applyAxisOp (s : List GamepadMapping) : AxisOp → List GamepadMapping
  | .set g st d k l th ty se ac ix iy => setAxisMapping s g st d k l th ty se ac ix iy
  | .remove g st d => removeAxisMapping s g st d

/-- Apply a sequence of editor operations, oldest first. -/
def applyAxisOps (s : List GamepadMapping) (ops : List AxisOp) : List GamepadMapping :=
  ops.foldl applyAxisOp s

/-- Per-device mode exclusivity: no stick carries both a mouse entry and a
hotkey entry. -/
def axisExclusive (ms : List AxisMapping) : Prop :=
  ∀ m1 ∈ ms, ∀ m2 ∈ ms, m1.stickIndex = m2.stickIndex →
    m1.type = StickMappingType.mouse → m2.type = StickMappingType.hotkey → False

/-- Store-wide mode exclusivity. -/
def storeExclusive (s : List GamepadMapping) : Prop :=
  ∀ dev ∈ s, axisExclusive dev.axisMappings

theorem updateFirst_mem {α : Type} {p : α → Bool} {f : α → α} {l : List α} {x : α}
    (hx : x ∈ updateFirst p f l) : x ∈ l ∨ ∃ y ∈ l, x = f y := by
  induction l with
  | nil => simp [updateFirst] at hx
  | cons a as ih =>
    by_cases hp : p a
    · simp only [updateFirst, if_pos hp, List.mem_cons] at hx
      rcases hx with h | h
      · exact Or.inr ⟨a, List.mem_cons_self a as, h⟩
      · exact Or.inl (List.mem_cons_of_mem a h)
    · simp only [updateFirst, if_neg hp, List.mem_cons] at hx
      rcases hx with h | h
      · exact Or.inl (h ▸ List.mem_cons_self a as)
      · rcases ih h with h2 | ⟨y, hy, hxy⟩
        · exact Or.inl (List.mem_cons_of_mem a h2)
        · exact Or.inr ⟨y, List.mem_cons_of_mem a hy, hxy⟩

theorem find?_updateFirst {α : Type} {p : α → Bool} {f : α → α} (l : List α)
    (hpf : ∀ x, p (f x) = p x) :
    (updateFirst p f l).find? p = (l.find? p).map f := by
  induction l with
  | nil => rfl
  | cons a as ih =>
    by_cases hp : p a
    · simp [updateFirst, if_pos hp, List.find?_cons, hpf, hp]
    · simp [updateFirst, if_neg hp, List.find?_cons, hp, ih]

theorem updateFirst_decomp {α : Type} {p : α → Bool} (f : α → α) {l : List α} {e : α}
    (h : l.find? p = some e) :
    ∃ pre post, l = pre ++ e :: post ∧ (∀ x ∈ pre, p x = false) ∧
      updateFirst p f l = pre ++ f e :: post := by
  induction l with
  | nil => simp [List.find?] at h
  | cons a as ih =>
    by_cases hp : p a
    · have he : a = e := by
        rw [List.find?_cons_of_pos _ hp] at h
        exact Option.some_injective _ h
      subst he
      exact ⟨[], as, rfl, by simp, by simp [updateFirst, if_pos hp]⟩
    · rw [List.find?_cons_of_neg _ hp] at h
      obtain ⟨pre, post, hl, hpre, hu⟩ := ih h
      refine ⟨a :: pre, post, by simp [hl], ?_, by simp [updateFirst, if_neg hp, hu]⟩
      intro x hx
      rcases List.mem_cons.mp hx with rfl | hx2
      · exact Bool.not_eq_true _ ▸ eq_false_of_ne_true (by simpa using hp)
      · exact hpre x hx2

theorem axisExclusive_subset {ms ms' : List AxisMapping}
    (hsub : ∀ x ∈ ms', x ∈ ms) (h : axisExclusive ms) : axisExclusive ms' :=
  fun m1 h1 m2 h2 => h m1 (hsub m1 h1) m2 (hsub m2 h2)

theorem setAxisOnDevice_gamepadIndex (st : ℕ) (d : StickDirection) (k l : String)
    (th : ℚ) (ty : StickMappingType) (se ac : ℚ) (ix iy : Bool) (dev : GamepadMapping) :
    (setAxisOnDevice st d k l th ty se ac ix iy dev).gamepadIndex = dev.gamepadIndex := by
  unfold setAxisOnDevice
  split_ifs <;> rfl

theorem setAxisOnDevice_exclusive (st : ℕ) (d : StickDirection) (k l : String)
    (th : ℚ) (ty : StickMappingType) (se ac : ℚ) (ix iy : Bool) (dev : GamepadMapping)
    (h : axisExclusive dev.axisMappings) :
    axisExclusive (setAxisOnDevice st d k l th ty se ac ix iy dev).axisMappings := by
  unfold setAxisOnDevice
  split_ifs with h1 h2 h3
  · intro m1 hm1 m2 hm2 hst hmouse hhot
    rcases updateFirst_mem hm1 with hy1 | ⟨y1, hy1, rfl⟩ <;>
      rcases updateFirst_mem hm2 with hy2 | ⟨y2, hy2, rfl⟩ <;>
      exact h _ hy1 _ hy2 (by simpa using hst) (by simpa using hmouse) (by simpa using hhot)
  · intro m1 hm1 m2 hm2 hst hmouse hhot
    rcases List.mem_append.mp hm1 with hf1 | he1 <;>
      rcases List.mem_append.mp hm2 with hf2 | he2
    · exact h _ (List.mem_filter.mp hf1).1 _ (List.mem_filter.mp hf2).1 hst hmouse hhot
    · have : m2 = ⟨st, .up, "Mouse", "Mouse", th, .mouse, some se, some ac, some ix, some iy⟩ := by
        simpa using he2
      rw [this] at hhot
      simp at hhot
    · have hm2f := List.mem_filter.mp hf2
      have he1e : m1 = ⟨st, .up, "Mouse", "Mouse", th, .mouse, some se, some ac, some ix, some iy⟩ := by
        simpa using he1
      have hhk : isHotkeyOf st m2 = true := by
        simp only [isHotkeyOf, Bool.and_eq_true, beq_iff_eq]
        exact ⟨by rw [← hst, he1e], hhot⟩
      have hcontra := hm2f.2
      simp [hhk] at hcontra
    · have : m1 = ⟨st, .up, "Mouse", "Mouse", th, .mouse, some se, some ac, some ix, some iy⟩ := by
        simpa using he1
      have h2 : m2 = ⟨st, .up, "Mouse", "Mouse", th, .mouse, some se, some ac, some ix, some iy⟩ := by
        simpa using he2
      rw [h2] at hhot
      simp at hhot
  · intro m1 hm1 m2 hm2 hst hmouse hhot
    rcases updateFirst_mem hm1 with hy1 | ⟨y1, hy1, rfl⟩ <;>
      rcases updateFirst_mem hm2 with hy2 | ⟨y2, hy2, rfl⟩ <;>
      exact h _ hy1 _ hy2 (by simpa using hst) (by simpa using hmouse) (by simpa using hhot)
  · intro m1 hm1 m2 hm2 hst hmouse hhot
    rcases List.mem_append.mp hm1 with hf1 | he1 <;>
      rcases List.mem_append.mp hm2 with hf2 | he2
    · exact h _ (List.mem_filter.mp hf1).1 _ (List.mem_filter.mp hf2).1 hst hmouse hhot
    · have hm1f := List.mem_filter.mp hf1
      have he2e : m2 = ⟨st, d, k, l, th, .hotkey, none, none, none, none⟩ := by
        simpa using he2
      have hmk : isMouseOf st m1 = true := by
        simp only [isMouseOf, Bool.and_eq_true, beq_iff_eq]
        exact ⟨by rw [hst, he2e], hmouse⟩
      have hcontra := hm1f.2
      simp [hmk] at hcontra
    · have : m1 = ⟨st, d, k, l, th, .hotkey, none, none, none, none⟩ := by
        simpa using he1
      rw [this] at hmouse
      simp at hmouse
    · have : m1 = ⟨st, d, k, l, th, .hotkey, none, none, none, none⟩ := by
        simpa using he1
      rw [this] at hmouse
      simp at hmouse

theorem setAxisMapping_storeExclusive (prev : List GamepadMapping)
    (g st : ℕ) (d : StickDirection) (k l : String) (th : ℚ)
    (ty : StickMappingType) (se ac : ℚ) (ix iy : Bool)
    (h : storeExclusive prev) :
    storeExclusive (setAxisMapping prev g st d k l th ty se ac ix iy) := by
  unfold setAxisMapping
  split_ifs with h1
  · intro dev hdev
    rcases updateFirst_mem hdev with hy | ⟨y, hy, rfl⟩
    · exact h dev hy
    · exact setAxisOnDevice_exclusive _ _ _ _ _ _ _ _ _ _ _ (h y hy)
  · intro dev hdev
    rcases List.mem_append.mp hdev with hy | hy
    · exact h dev hy
    · have : dev = setAxisOnDevice st d k l th ty se ac ix iy ⟨g, [], [], some []⟩ := by
        simpa using hy
      rw [this]
      refine setAxisOnDevice_exclusive _ _ _ _ _ _ _ _ _ _ _ ?_
      intro m1 hm1
      simp at hm1

theorem removeAxisMapping_storeExclusive (prev : List GamepadMapping)
    (g st : ℕ) (d : StickDirection) (h : storeExclusive prev) :
    storeExclusive (removeAxisMapping prev g st d) := by
  intro dev hdev
  rcases updateFirst_mem hdev with hy | ⟨y, hy, rfl⟩
  · exact h dev hy
  · exact axisExclusive_subset (fun x hx => (List.mem_filter.mp hx).1) (h y hy)

theorem applyAxisOps_storeExclusive (ops : List AxisOp) (prev : List GamepadMapping)
    (h : storeExclusive prev) : storeExclusive (applyAxisOps prev ops) := by
  induction ops generalizing prev with
  | nil => exact h
  | cons op ops ih =>
    refine ih _ ?_
    cases op with
    | set g st d k l th ty se ac ix iy =>
      exact setAxisMapping_storeExclusive prev g st d k l th ty se ac ix iy h
    | remove g st d => exact removeAxisMapping_storeExclusive prev g st d h

theorem setAxisOnDevice_mouse_post (st : ℕ) (d : StickDirection) (k l : String)
    (th se ac : ℚ) (ix iy : Bool) (dev : GamepadMapping)
    (h : axisExclusive dev.axisMappings) :
    ∀ m ∈ (setAxisOnDevice st d k l th StickMappingType.mouse se ac ix iy dev).axisMappings,
      isHotkeyOf st m = false := by
  intro m hm
  unfold setAxisOnDevice at hm
  rw [if_pos rfl] at hm
  by_cases h2 : (dev.axisMappings.find? (isMouseOf st)).isSome
  · rw [if_pos h2] at hm
    simp only [] at hm
    obtain ⟨e, he⟩ := Option.isSome_iff_exists.mp h2
    have heMem : e ∈ dev.axisMappings := List.mem_of_find?_eq_some he
    have heP : isMouseOf st e = true := List.find?_some he
    simp only [isMouseOf, Bool.and_eq_true, beq_iff_eq] at heP
    by_contra hk
    rw [Bool.not_eq_false] at hk
    simp only [isHotkeyOf, Bool.and_eq_true, beq_iff_eq] at hk
    rcases updateFirst_mem hm with hy | ⟨y, hy, rfl⟩
    · exact h e heMem m hy (heP.1.trans hk.1.symm) heP.2 hk.2
    · exact h e heMem y hy (heP.1.trans hk.1.symm) heP.2 hk.2
  · rw [if_neg h2] at hm
    simp only [] at hm
    rcases List.mem_append.mp hm with hf | he
    · have := (List.mem_filter.mp hf).2
      simpa using this
    · have : m = ⟨st, .up, "Mouse", "Mouse", th, .mouse, some se, some ac, some ix, some iy⟩ := by
        simpa using he
      rw [this]
      simp [isHotkeyOf]

theorem setAxisOnDevice_hotkey_post (st : ℕ) (d : StickDirection) (k l : String)
    (th se ac : ℚ) (ix iy : Bool) (dev : GamepadMapping)
    (h : axisExclusive dev.axisMappings) :
    ∀ m ∈ (setAxisOnDevice st d k l th StickMappingType.hotkey se ac ix iy dev).axisMappings,
      isMouseOf st m = false := by
  intro m hm
  unfold setAxisOnDevice at hm
  rw [if_neg (by simp)] at hm
  by_cases h2 : (dev.axisMappings.find? fun m =>
      m.stickIndex == st && m.direction == d && m.type == StickMappingType.hotkey).isSome
  · rw [if_pos h2] at hm
    simp only [] at hm
    obtain ⟨e, he⟩ := Option.isSome_iff_exists.mp h2
    have heMem : e ∈ dev.axisMappings := List.mem_of_find?_eq_some he
    have heP := List.find?_some he
    simp only [Bool.and_eq_true, beq_iff_eq] at heP
    by_contra hk
    rw [Bool.not_eq_false] at hk
    simp only [isMouseOf, Bool.and_eq_true, beq_iff_eq] at hk
    rcases updateFirst_mem hm with hy | ⟨y, hy, rfl⟩
    · exact h m hy e heMem (hk.1.trans heP.1.1.symm) hk.2 heP.2
    · exact h y hy e heMem (hk.1.trans heP.1.1.symm) hk.2 heP.2
  · rw [if_neg h2] at hm
    simp only [] at hm
    rcases List.mem_append.mp hm with hf | he
    · have := (List.mem_filter.mp hf).2
      simpa using this
    · have : m = ⟨st, d, k, l, th, .hotkey, none, none, none, none⟩ := by
        simpa using he
      rw [this]
      simp [isMouseOf]

theorem getMapping_setAxisMapping (prev : List GamepadMapping) (g st : ℕ)
    (d : StickDirection) (k l : String) (th : ℚ) (ty : StickMappingType)
    (se ac : ℚ) (ix iy : Bool) :
    getMapping (setAxisMapping prev g st d k l th ty se ac ix iy) g =
      some (setAxisOnDevice st d k l th ty se ac ix iy
        ((getMapping prev g).getD ⟨g, [], [], some []⟩)) := by
  unfold setAxisMapping
  split_ifs with h1
  · obtain ⟨dev0, hdev0⟩ := Option.isSome_iff_exists.mp h1
    unfold getMapping at hdev0 ⊢
    rw [find?_updateFirst _ (fun x => by rw [setAxisOnDevice_gamepadIndex])]
    rw [hdev0]
    rfl
  · rw [Option.not_isSome_iff_eq_none] at h1
    unfold getMapping at h1 ⊢
    rw [List.find?_append, h1]
    simp [List.find?, setAxisOnDevice_gamepadIndex]

/-- C2: starting from a store satisfying per-stick mode exclusivity, any
sequence of `setAxisMapping` / `removeAxisMapping` operations preserves it
(a stick never simultaneously holds a mouse entry and a hotkey entry), and
exclusivity is established at write time: immediately after a mouse-mode
`setAxisMapping` the device's stick has no hotkey entry, and immediately
after a hotkey-mode `setAxisMapping` it has no mouse entry. -/
theorem c2_mode_exclusivity (prev : List GamepadMapping) (ops : List AxisOp)
    (g st : ℕ) (d : StickDirection) (k l : String) (th se ac : ℚ) (ix iy : Bool)
    (h : storeExclusive prev) :
    storeExclusive (applyAxisOps prev ops) ∧
    (∀ dev, getMapping (setAxisMapping prev g st d k l th .mouse se ac ix iy) g = some dev →
      ∀ m ∈ dev.axisMappings, isHotkeyOf st m = false) ∧
    (∀ dev, getMapping (setAxisMapping prev g st d k l th .hotkey se ac ix iy) g = some dev →
      ∀ m ∈ dev.axisMappings, isMouseOf st m = false) := by
  have hbase : axisExclusive ((getMapping prev g).getD ⟨g, [], [], some []⟩).axisMappings := by
    cases hg : getMapping prev g with
    | none => intro m1 hm1; simp at hm1
    | some dev0 =>
      have : dev0 ∈ prev := List.mem_of_find?_eq_some hg
      exact h dev0 this
  refine ⟨applyAxisOps_storeExclusive ops prev h, ?_, ?_⟩
  · intro dev hdev
    rw [getMapping_setAxisMapping] at hdev
    have hdev2 := Option.some.inj hdev
    rw [← hdev2]
    exact setAxisOnDevice_mouse_post st d k l th se ac ix iy _ hbase
  · intro dev hdev
    rw [getMapping_setAxisMapping] at hdev
    have hdev2 := Option.some.inj hdev
    rw [← hdev2]
    exact setAxisOnDevice_hotkey_post st d k l th se ac ix iy _ hbase

/-- Witness for `c2_mode_exclusivity`: the empty store and a single
mouse-mode set operation. -/
theorem c2_mode_exclusivity_witness :
    storeExclusive (applyAxisOps []
      [AxisOp.set 0 0 StickDirection.up "A" "A" (1/2) .mouse 1 1 false false]) ∧
    (∀ dev, getMapping (setAxisMapping [] 0 0 StickDirection.up "A" "A" (1/2) .mouse 1 1 false false) 0 = some dev →
      ∀ m ∈ dev.axisMappings, isHotkeyOf 0 m = false) ∧
    (∀ dev, getMapping (setAxisMapping [] 0 0 StickDirection.up "A" "A" (1/2) .hotkey 1 1 false false) 0 = some dev →
      ∀ m ∈ dev.axisMappings, isMouseOf 0 m = false) :=
  c2_mode_exclusivity []
    [AxisOp.set 0 0 StickDirection.up "A" "A" (1/2) .mouse 1 1 false false]
    0 0 StickDirection.up "A" "A" (1/2) 1 1 false false
    (fun dev hdev => absurd hdev (List.not_mem_nil dev))

/-- C10: a mouse-mode `setAxisMapping` ignores its `direction`, `key` and
`label` arguments entirely; on the insert path the stored mouse entry has
`direction = up`, `key = "Mouse"`, `label = "Mouse"` (both when the device
mapping already exists and when it is freshly created); and on the update
path exactly the five fields `threshold`, `sensitivity`, `acceleration`,
`invertX`, `invertY` of the first existing mouse entry for the stick are
replaced while its remaining fields, all entries before and after it, and
the rest of the device mapping stay unchanged. -/
theorem c10_mouse_set_canonical (prev : List GamepadMapping) (g st : ℕ)
    (d1 d2 : StickDirection) (k1 k2 l1 l2 : String) (th se ac : ℚ) (ix iy : Bool) :
    (setAxisMapping prev g st d1 k1 l1 th .mouse se ac ix iy
      = setAxisMapping prev g st d2 k2 l2 th .mouse se ac ix iy) ∧
    (∀ dev0, getMapping prev g = some dev0 →
      dev0.axisMappings.find? (isMouseOf st) = none →
      ∀ dev, getMapping (setAxisMapping prev g st d1 k1 l1 th .mouse se ac ix iy) g = some dev →
        dev.axisMappings.filter (isMouseOf st)
          = [⟨st, .up, "Mouse", "Mouse", th, .mouse, some se, some ac, some ix, some iy⟩]) ∧
    (getMapping prev g = none →
      ∀ dev, getMapping (setAxisMapping prev g st d1 k1 l1 th .mouse se ac ix iy) g = some dev →
        dev.axisMappings
          = [⟨st, .up, "Mouse", "Mouse", th, .mouse, some se, some ac, some ix, some iy⟩]) ∧
    (∀ dev0 e, getMapping prev g = some dev0 →
      dev0.axisMappings.find? (isMouseOf st) = some e →
      ∃ pre post, dev0.axisMappings = pre ++ e :: post ∧
        (∀ x ∈ pre, isMouseOf st x = false) ∧
        ∀ dev, getMapping (setAxisMapping prev g st d1 k1 l1 th .mouse se ac ix iy) g = some dev →
          dev.axisMappings = pre ++ ({ e with threshold := th, sensitivity := some se, acceleration := some ac, invertX := some ix, invertY := some iy } :: post)) := by
  refine ⟨?_, ?_, ?_, ?_⟩
  · have hfun : setAxisOnDevice st d1 k1 l1 th .mouse se ac ix iy
        = setAxisOnDevice st d2 k2 l2 th .mouse se ac ix iy := by
      funext dev
      simp [setAxisOnDevice]
    simp only [setAxisMapping, hfun]
  · intro dev0 hdev0 hnone dev hdev
    rw [getMapping_setAxisMapping, hdev0] at hdev
    have hdev2 := Option.some.inj hdev
    rw [← hdev2]
    simp only [Option.getD_some]
    unfold setAxisOnDevice
    rw [if_pos rfl, if_neg (by rw [hnone]; simp)]
    simp only []
    rw [List.filter_append]
    have h1 : (dev0.axisMappings.filter fun m => !(isHotkeyOf st m)).filter (isMouseOf st) = [] := by
      rw [List.filter_eq_nil_iff]
      intro a ha
      have ham := (List.mem_filter.mp ha).1
      have := List.find?_eq_none.mp hnone a ham
      simpa using this
    rw [h1]
    simp [isMouseOf]
  · intro hnone dev hdev
    rw [getMapping_setAxisMapping, hnone] at hdev
    have hdev2 := Option.some.inj hdev
    rw [← hdev2]
    simp only [Option.getD_none]
    unfold setAxisOnDevice
    rw [if_pos rfl, if_neg (by simp [List.find?])]
    simp [List.filter]
  · intro dev0 e hdev0 hfind
    obtain ⟨pre, post, hsplit, hpre, hupd⟩ :=
      updateFirst_decomp (fun m => { m with threshold := th, sensitivity := some se, acceleration := some ac, invertX := some ix, invertY := some iy }) hfind
    refine ⟨pre, post, hsplit, hpre, ?_⟩
    intro dev hdev
    rw [getMapping_setAxisMapping, hdev0] at hdev
    have hdev2 := Option.some.inj hdev
    rw [← hdev2]
    simp only [Option.getD_some]
    unfold setAxisOnDevice
    rw [if_pos rfl, if_pos (by rw [hfind]; rfl)]
    simp only []
    exact hupd

/-- Witness for `c10_mouse_set_canonical` on the empty store. -/
theorem c10_mouse_set_canonical_witness :
    (setAxisMapping [] 0 0 StickDirection.down "X" "X" (1/2) .mouse 2 1 true false
      = setAxisMapping [] 0 0 StickDirection.left "Y" "Z" (1/2) .mouse 2 1 true false) ∧
    (getMapping ([] : List GamepadMapping) 0 = none →
      ∀ dev, getMapping (setAxisMapping [] 0 0 StickDirection.down "X" "X" (1/2) .mouse 2 1 true false) 0 = some dev →
        dev.axisMappings
          = [⟨0, .up, "Mouse", "Mouse", 1/2, .mouse, some 2, some 1, some true, some false⟩]) :=
  ⟨(c10_mouse_set_canonical [] 0 0 StickDirection.down StickDirection.left
      "X" "Y" "X" "Z" (1/2) 2 1 true false).1,
   (c10_mouse_set_canonical [] 0 0 StickDirection.down StickDirection.left
      "X" "Y" "X" "Z" (1/2) 2 1 true false).2.2.1⟩

/-- One entry of `gamepad.buttons`. -/
structure GpButton where
  pressed : Bool
  value : ℚ
deriving DecidableEq, Repr

/-- The pair of axis indices of `getStickAxes` in
`src/utils/stickDirection.ts`: stick 0 reads axes 0/1, any other stick
reads axes 2/3. -/
structure StickAxes where
  axisXIndex : ℕ
  axisYIndex : ℕ
deriving DecidableEq, Repr

/-- `getStickAxes` from `src/utils/stickDirection.ts`. -/
def getStickAxes (stickIndex : ℕ) : StickAxes :=
  if stickIndex = 0 then ⟨0, 1⟩ else ⟨2, 3⟩

/-- `getDpadDirection` from `src/utils/stickDirection.ts`: combine the four
D-pad button booleans (indices 12–15), diagonals first. -/
def getDpadDirection (buttons : List GpButton) : Option StickDirection :=
  let up := ((buttons.get? 12).map GpButton.pressed).getD false
  let down := ((buttons.get? 13).map GpButton.pressed).getD false
  let left := ((buttons.get? 14).map GpButton.pressed).getD false
  let right := ((buttons.get? 15).map GpButton.pressed).getD false
  if up && left then some .upLeft
  else if up && right then some .upRight
  else if down && left then some .downLeft
  else if down && right then some .downRight
  else if up then some .up
  else if down then some .down
  else if left then some .left
  else if right then some .right
  else none

/-- `getFallbackDirections` (lines 345–361): the two adjacent cardinals of
a diagonal, `[]` for anything else. -/
def getFallbackDirections : StickDirection → List StickDirection
  | .upLeft => [.up, .left]
  | .upRight => [.up, .right]
  | .downLeft => [.down, .left]
  | .downRight => [.down, .right]
  | _ => []

/-- Whether a direction is one of the four diagonals. -/
def isDiagonal : StickDirection → Bool
  | .upLeft | .upRight | .downLeft | .downRight => true
  | _ => false

/-- The `isActive` computation of the D-pad loop (lines 493–517) for one
`DpadMapping` of the device's configured set. -/
def dpadIsActive (dpadMappings : List DpadMapping) (buttons : List GpButton)
    (dm : DpadMapping) : Bool :=
  let currentDirection := getDpadDirection buttons
  let hasDirectMapping :=
    currentDirection.isSome
      && dpadMappings.any fun m => some m.direction == currentDirection
  if currentDirection == some dm.direction then
    true
  else if currentDirection.isSome && !hasDirectMapping then
    (currentDirection.elim [] getFallbackDirections).contains dm.direction
  else
    false

/-- The `isActive` computation of the stick-hotkey loop (lines 658–696)
for one `AxisMapping` of the stick's configured set, given the stick's raw
axis values: classification uses the mapping's own threshold, and fallback
eligibility is checked against the set of directions configured for this
stick. -/
def stickHotkeyActive (axisMappings : List AxisMapping) (x y : ℚ)
    (am : AxisMapping) : Bool :=
  let configuredDirections := axisMappings.map fun m => m.direction
  let detectedDirection := getStickDirection x y am.threshold
  if detectedDirection == some am.direction then
    true
  else if detectedDirection.isSome
      && !(detectedDirection.elim false configuredDirections.contains) then
    (detectedDirection.elim [] getFallbackDirections).contains am.direction
  else
    false

/-- C4: when a frame's classified direction is a diagonal, a D-pad or
stick-hotkey mapping set activates exactly the mapping for that diagonal if
one is configured, and otherwise exactly the configured mappings for the
two adjacent cardinal directions — no other mapping of the set fires. -/
theorem c4_diagonal_fallback
    (dms : List DpadMapping) (buttons : List GpButton)
    (ams : List AxisMapping) (x y : ℚ) (diag : StickDirection)
    (hdg : isDiagonal diag = true)
    (hd : getDpadDirection buttons = some diag)
    (hs : ∀ m ∈ ams, getStickDirection x y m.threshold = some diag) :
    ((∀ m ∈ dms, m.direction ≠ diag) →
      ∀ dm ∈ dms,
        (dpadIsActive dms buttons dm = true ↔ dm.direction ∈ getFallbackDirections diag)) ∧
    ((∃ m ∈ dms, m.direction = diag) →
      ∀ dm ∈ dms, (dpadIsActive dms buttons dm = true ↔ dm.direction = diag)) ∧
    ((∀ m ∈ ams, m.direction ≠ diag) →
      ∀ am ∈ ams,
        (stickHotkeyActive ams x y am = true ↔ am.direction ∈ getFallbackDirections diag)) ∧
    ((∃ m ∈ ams, m.direction = diag) →
      ∀ am ∈ ams, (stickHotkeyActive ams x y am = true ↔ am.direction = diag)) := by
  refine ⟨?_, ?_, ?_, ?_⟩
  · intro hnone dm hdm
    have hne := hnone dm hdm
    have hany : (dms.any fun m => some m.direction == (some diag : Option StickDirection)) = false := by
      rw [List.any_eq_false]
      intro m hm
      simp [hnone m hm]
    simp [dpadIsActive, hd, hany, Ne.symm hne, List.elem_iff]
    exact fun _ => hnone
  · intro hdirect dm hdm
    obtain ⟨m0, hm0, hm0d⟩ := hdirect
    have hany : (dms.any fun m => some m.direction == (some diag : Option StickDirection)) = true := by
      rw [List.any_eq_true]
      exact ⟨m0, hm0, by simp [hm0d]⟩
    by_cases hdir : dm.direction = diag
    · simp [dpadIsActive, hd, hdir]
    · simp [dpadIsActive, hd, hany, Ne.symm hdir, hdir]
      exact fun h => absurd hm0d (h m0 hm0)
  · intro hnone am ham
    have hne := hnone am ham
    have hcontains : ((ams.map fun m => m.direction).contains diag) = false := by
      rw [Bool.eq_false_iff]
      intro hc
      rw [List.elem_iff] at hc
      obtain ⟨m, hm, hmd⟩ := List.mem_map.mp hc
      exact hnone m hm hmd
    simp [stickHotkeyActive, hs am ham, Ne.symm hne, hcontains, List.elem_iff]
    exact fun _ => hnone
  · intro hdirect am ham
    obtain ⟨m0, hm0, hm0d⟩ := hdirect
    have hcontains : ((ams.map fun m => m.direction).contains diag) = true := by
      rw [List.elem_iff]
      exact List.mem_map.mpr ⟨m0, hm0, hm0d⟩
    by_cases hdir : am.direction = diag
    · simp [stickHotkeyActive, hs am ham, hdir]
    · simp [stickHotkeyActive, hs am ham, Ne.symm hdir, hdir, hcontains]
      exact fun h => absurd hm0d (h m0 hm0)

/-- Witness for `c4_diagonal_fallback`: D-pad up+left pressed, stick
deflected up-left, a mapping set configured only with `up` and `left`. -/
theorem c4_diagonal_fallback_witness :
    ((∀ m ∈ [(⟨.up, "w", "W"⟩ : DpadMapping), ⟨.left, "a", "A"⟩], m.direction ≠ .upLeft) →
      ∀ dm ∈ [(⟨.up, "w", "W"⟩ : DpadMapping), ⟨.left, "a", "A"⟩],
        (dpadIsActive [⟨.up, "w", "W"⟩, ⟨.left, "a", "A"⟩]
            (List.replicate 12 ⟨false, 0⟩ ++ [⟨true, 1⟩, ⟨false, 0⟩, ⟨true, 1⟩, ⟨false, 0⟩]) dm = true
          ↔ dm.direction ∈ getFallbackDirections .upLeft)) ∧
    ((∃ m ∈ [(⟨.up, "w", "W"⟩ : DpadMapping), ⟨.left, "a", "A"⟩], m.direction = .upLeft) →
      ∀ dm ∈ [(⟨.up, "w", "W"⟩ : DpadMapping), ⟨.left, "a", "A"⟩],
        (dpadIsActive [⟨.up, "w", "W"⟩, ⟨.left, "a", "A"⟩]
            (List.replicate 12 ⟨false, 0⟩ ++ [⟨true, 1⟩, ⟨false, 0⟩, ⟨true, 1⟩, ⟨false, 0⟩]) dm = true
          ↔ dm.direction = .upLeft)) ∧
    ((∀ m ∈ [(⟨0, .up, "w", "W", 3/10, .hotkey, none, none, none, none⟩ : AxisMapping),
              ⟨0, .left, "a", "A", 3/10, .hotkey, none, none, none, none⟩], m.direction ≠ .upLeft) →
      ∀ am ∈ [(⟨0, .up, "w", "W", 3/10, .hotkey, none, none, none, none⟩ : AxisMapping),
              ⟨0, .left, "a", "A", 3/10, .hotkey, none, none, none, none⟩],
        (stickHotkeyActive [⟨0, .up, "w", "W", 3/10, .hotkey, none, none, none, none⟩,
              ⟨0, .left, "a", "A", 3/10, .hotkey, none, none, none, none⟩] (-(1/2)) (-(1/2)) am = true
          ↔ am.direction ∈ getFallbackDirections .upLeft)) ∧
    ((∃ m ∈ [(⟨0, .up, "w", "W", 3/10, .hotkey, none, none, none, none⟩ : AxisMapping),
              ⟨0, .left, "a", "A", 3/10, .hotkey, none, none, none, none⟩], m.direction = .upLeft) →
      ∀ am ∈ [(⟨0, .up, "w", "W", 3/10, .hotkey, none, none, none, none⟩ : AxisMapping),
              ⟨0, .left, "a", "A", 3/10, .hotkey, none, none, none, none⟩],
        (stickHotkeyActive [⟨0, .up, "w", "W", 3/10, .hotkey, none, none, none, none⟩,
              ⟨0, .left, "a", "A", 3/10, .hotkey, none, none, none, none⟩] (-(1/2)) (-(1/2)) am = true
          ↔ am.direction = .upLeft)) :=
  c4_diagonal_fallback
    [⟨.up, "w", "W"⟩, ⟨.left, "a", "A"⟩]
    (List.replicate 12 ⟨false, 0⟩ ++ [⟨true, 1⟩, ⟨false, 0⟩, ⟨true, 1⟩, ⟨false, 0⟩])
    [⟨0, .up, "w", "W", 3/10, .hotkey, none, none, none, none⟩,
     ⟨0, .left, "a", "A", 3/10, .hotkey, none, none, none, none⟩]
    (-(1/2)) (-(1/2)) .upLeft
    (by rfl)
    (by rfl)
    (by intro m hm
        simp only [List.mem_cons, List.not_mem_nil, or_false] at hm
        rcases hm with rfl | rfl <;> norm_num [getStickDirection, ratAbs])

/-- The per-stick state key
`` `gamepad-${gamepad.index}-mouse-${stickIndex}` ``. -/
def mouseStateKeyOf (gIdx stickIndex : ℕ) : String :=
  "gamepad-" ++ toString gIdx ++ "-mouse-" ++ toString stickIndex

/-- The mutable refs of the mouse path: `stickMovementStartTimeRef`
(`Map<string, number>`, timestamps in milliseconds) and
`pendingMouseMovementsRef` (`Set<string>`). -/
structure MouseRefs where
  startTimes : String → Option ℚ
  pending : String → Bool

/-- Both refs start out empty. -/
def initMouseRefs : MouseRefs := ⟨fun _ => none, fun _ => false⟩

/-- A `moveMouse(deltaX, deltaY)` command. -/
structure MouseCmd where
  dx : ℚ
  dy : ℚ
deriving DecidableEq, Repr

/-- The per-axis deadzone removal of lines 571–583: `0` below the
threshold, otherwise `sign * (abs - threshold) / (1 - threshold)` with
`sign` computed as `stickX >= 0 ? 1 : -1`. -/
def normalizeAxis (v threshold : ℚ) : ℚ :=
  if ratAbs v ≥ threshold then
    (if v ≥ 0 then (1 : ℚ) else -1) * (ratAbs v - threshold) / (1 - threshold)
  else 0

/-- The inversion-adjusted X read of lines 534–539 (and the re-read of
lines 602–607): `gamepad.axes[axisXIndex] || 0`, negated when `invertX`. -/
def stickReadX (m : AxisMapping) (axes : List ℚ) : ℚ :=
  let a := getStickAxes m.stickIndex
  let v := (axes.get? a.axisXIndex).getD 0
  if m.invertX.getD false then -v else v

/-- The inversion-adjusted Y read. -/
def stickReadY (m : AxisMapping) (axes : List ℚ) : ℚ :=
  let a := getStickAxes m.stickIndex
  let v := (axes.get? a.axisYIndex).getD 0
  if m.invertY.getD false then -v else v

/-- One frame of the mouse-mode path for one stick (lines 526–637).
`powFn` stands for `Math.pow`, `axes` is the sample read at the top of the
frame and `axesAtDispatch` the re-read of the live `gamepad.axes` just
before dispatch, `now` is `Date.now()` in milliseconds. Returns the
updated refs and the dispatched motion command, if any (the mouse
simulator is taken to be available). -/
def mouseFrameStep (powFn : ℚ → ℚ → ℚ) (m : AxisMapping) (gIdx : ℕ)
    (axes axesAtDispatch : List ℚ) (now : ℚ) (refs : MouseRefs) :
    MouseRefs × Option MouseCmd :=
  let stickX := stickReadX m axes
  let stickY := stickReadY m axes
  let absX := ratAbs stickX
  let absY := ratAbs stickY
  let threshold := m.threshold
  let mouseStateKey := mouseStateKeyOf gIdx m.stickIndex
  if absX < threshold ∧ absY < threshold then
    ({ refs with startTimes := fun z => if z = mouseStateKey then none else refs.startTimes z },
     none)
  else
    let sensitivity := m.sensitivity.getD DEFAULT_MOUSE_SENSITIVITY
    let acceleration := m.acceleration.getD DEFAULT_MOUSE_ACCELERATION
    let movementStartTime := (refs.startTimes mouseStateKey).getD now
    let refs1 : MouseRefs :=
      { refs with startTimes := fun z => if z = mouseStateKey then some movementStartTime else refs.startTimes z }
    let movementDurationSeconds := (now - movementStartTime) / 1000
    let normalizedX := normalizeAxis stickX threshold
    let normalizedY := normalizeAxis stickY threshold
    let accelerationMultiplier :=
      if acceleration ≠ 1 ∧ movementDurationSeconds > 0 then
        powFn acceleration movementDurationSeconds
      else 1
    let deltaX := normalizedX * sensitivity * accelerationMultiplier * 10
    let deltaY := normalizedY * sensitivity * accelerationMultiplier * 10
    let finalX := stickReadX m axesAtDispatch
    let finalY := stickReadY m axesAtDispatch
    if ratAbs finalX < threshold ∧ ratAbs finalY < threshold then
      ({ refs1 with startTimes := fun z => if z = mouseStateKey then none else refs1.startTimes z },
       none)
    else if refs1.pending mouseStateKey then
      (refs1, none)
    else
      ({ refs1 with pending := fun z => if z = mouseStateKey then true else refs1.pending z },
       some ⟨deltaX, deltaY⟩)

/-- Completion of a dispatched `moveMouse` promise: resolution or
rejection. -/
inductive MoveOutcome where
  | resolved
  | rejected (msg : String)

/-- The completion handlers of lines 629–635: `.then` deletes the pending
flag; `.catch` logs and deletes the pending flag — both paths clear it. -/
def mouseMoveComplete (key : String) (o : MoveOutcome) (refs : MouseRefs) : MouseRefs :=
  match o with
  | .resolved =>
      { refs with pending := fun z => if z = key then false else refs.pending z }
  | .rejected _ =>
      { refs with pending := fun z => if z = key then false else refs.pending z }

/-- Modelled from the spec (§4.3 step 2): the flat per-axis deadzone
normalization stated there, with the mathematical sign function. -/
def specNormalize (v threshold : ℚ) : ℚ :=
  if ratAbs v < threshold then 0
  else (if v > 0 then (1 : ℚ) else if v < 0 then -1 else 0) * (ratAbs v - threshold) / (1 - threshold)

theorem normalizeAxis_eq_spec (v t : ℚ) (ht : 0 < t) :
    normalizeAxis v t = specNormalize v t := by
  by_cases h1 : ratAbs v < t
  · rw [specNormalize, if_pos h1, normalizeAxis, if_neg (not_le.mpr h1)]
  · rw [specNormalize, if_neg h1, normalizeAxis, if_pos (not_lt.mp h1)]
    have habs : 0 ≤ ratAbs v := by
      unfold ratAbs
      split_ifs with h <;> linarith
    have hvne : v ≠ 0 := by
      intro h
      rw [h] at h1
      simp [ratAbs] at h1
      linarith
    by_cases h2 : v ≥ 0
    · rw [if_pos h2, if_pos (lt_of_le_of_ne h2 (Ne.symm hvne))]
    · rw [if_neg h2, if_neg (by linarith [not_le.mp h2]), if_pos (not_le.mp h2)]

/-- Counterexample to C6 as stated: with threshold `0.5` and an adjusted
deflection of exactly `(0.5, 0)`, both axes normalize to `0`, yet the
frame is not treated as at rest — a zero-delta motion command is
dispatched and the movement-start timestamp is recorded, not cleared. -/
theorem c6_counterexample :
    normalizeAxis (1/2) (1/2) = 0 ∧
    normalizeAxis (0 : ℚ) (1/2) = 0 ∧
    (mouseFrameStep (fun _ _ => 1)
        ⟨0, .up, "Mouse", "Mouse", 1/2, .mouse, some 1, some 1, some false, some false⟩
        0 [1/2, 0] [1/2, 0] 0 initMouseRefs).2
      = some ⟨0, 0⟩ ∧
    (mouseFrameStep (fun _ _ => 1)
        ⟨0, .up, "Mouse", "Mouse", 1/2, .mouse, some 1, some 1, some false, some false⟩
        0 [1/2, 0] [1/2, 0] 0 initMouseRefs).1.startTimes (mouseStateKeyOf 0 0)
      = some 0 := by
  refine ⟨by norm_num [normalizeAxis, ratAbs], by norm_num [normalizeAxis, ratAbs], ?_, ?_⟩ <;>
    norm_num [mouseFrameStep, stickReadX, stickReadY, getStickAxes, ratAbs,
      normalizeAxis, initMouseRefs, DEFAULT_MOUSE_SENSITIVITY, DEFAULT_MOUSE_ACCELERATION]

/-- C6 (amended): each axis is normalized independently to `0` when
`|v| < t` and to `sign(v) * (|v| - t) / (1 - t)` otherwise; and the stick
is treated as at rest — timestamp cleared, no motion command — exactly
when both inversion-adjusted raw axes are strictly inside the deadzone
(`|x| < t` and `|y| < t`). (A deflection exactly at the threshold also
normalizes to `0`, but still dispatches a zero-delta command, so "both
normalized axes are 0" does not imply rest; see `c6_counterexample`.) -/
theorem c6_deadzone_rest_amended
    (v t : ℚ) (ht : 0 < t)
    (powFn : ℚ → ℚ → ℚ) (m : AxisMapping) (gIdx : ℕ) (axes axes2 : List ℚ)
    (now : ℚ) (refs : MouseRefs)
    (hx : ratAbs (stickReadX m axes) < m.threshold)
    (hy : ratAbs (stickReadY m axes) < m.threshold) :
    normalizeAxis v t = specNormalize v t ∧
    mouseFrameStep powFn m gIdx axes axes2 now refs
      = ({ refs with startTimes := fun z =>
            if z = mouseStateKeyOf gIdx m.stickIndex then none else refs.startTimes z },
         none) := by
  refine ⟨normalizeAxis_eq_spec v t ht, ?_⟩
  simp only [mouseFrameStep]
  rw [if_pos ⟨hx, hy⟩]

/-- Witness for `c6_deadzone_rest_amended` with the stick at `(0.1, 0)`
and threshold `0.5`. -/
theorem c6_deadzone_rest_amended_witness :
    normalizeAxis (1/4) (1/2) = specNormalize (1/4) (1/2) ∧
    mouseFrameStep (fun _ _ => 1)
        ⟨0, .up, "Mouse", "Mouse", 1/2, .mouse, some 1, some 1, some false, some false⟩
        0 [1/10, 0] [1/10, 0] 0 initMouseRefs
      = ({ initMouseRefs with startTimes := fun z =>
            if z = mouseStateKeyOf 0 0 then none else initMouseRefs.startTimes z },
         none) :=
  c6_deadzone_rest_amended (1/4) (1/2) (by norm_num) (fun _ _ => 1)
    ⟨0, .up, "Mouse", "Mouse", 1/2, .mouse, some 1, some 1, some false, some false⟩
    0 [1/10, 0] [1/10, 0] 0 initMouseRefs
    (by norm_num [stickReadX, getStickAxes, ratAbs])
    (by norm_num [stickReadY, getStickAxes, ratAbs])

theorem mouseFrameStep_dispatch (powFn : ℚ → ℚ → ℚ) (m : AxisMapping) (gIdx : ℕ)
    (axes axes2 : List ℚ) (now : ℚ) (refs : MouseRefs)
    (h1 : ¬(ratAbs (stickReadX m axes) < m.threshold ∧ ratAbs (stickReadY m axes) < m.threshold))
    (h2 : ¬(ratAbs (stickReadX m axes2) < m.threshold ∧ ratAbs (stickReadY m axes2) < m.threshold))
    (h3 : refs.pending (mouseStateKeyOf gIdx m.stickIndex) = false) :
    mouseFrameStep powFn m gIdx axes axes2 now refs =
      ({ startTimes := fun z => if z = mouseStateKeyOf gIdx m.stickIndex
            then some ((refs.startTimes (mouseStateKeyOf gIdx m.stickIndex)).getD now)
            else refs.startTimes z,
         pending := fun z => if z = mouseStateKeyOf gIdx m.stickIndex then true
            else refs.pending z },
       some ⟨normalizeAxis (stickReadX m axes) m.threshold
               * m.sensitivity.getD DEFAULT_MOUSE_SENSITIVITY
               * (if m.acceleration.getD DEFAULT_MOUSE_ACCELERATION ≠ 1
                     ∧ (now - (refs.startTimes (mouseStateKeyOf gIdx m.stickIndex)).getD now) / 1000 > 0
                  then powFn (m.acceleration.getD DEFAULT_MOUSE_ACCELERATION)
                    ((now - (refs.startTimes (mouseStateKeyOf gIdx m.stickIndex)).getD now) / 1000)
                  else 1)
               * 10,
             normalizeAxis (stickReadY m axes) m.threshold
               * m.sensitivity.getD DEFAULT_MOUSE_SENSITIVITY
               * (if m.acceleration.getD DEFAULT_MOUSE_ACCELERATION ≠ 1
                     ∧ (now - (refs.startTimes (mouseStateKeyOf gIdx m.stickIndex)).getD now) / 1000 > 0
                  then powFn (m.acceleration.getD DEFAULT_MOUSE_ACCELERATION)
                    ((now - (refs.startTimes (mouseStateKeyOf gIdx m.stickIndex)).getD now) / 1000)
                  else 1)
               * 10⟩) := by
  simp only [mouseFrameStep]
  rw [if_neg h1, if_neg h2]
  simp only [h3, Bool.false_eq_true, if_false]

/-- C7: outside the deadzone, the dispatched per-axis delta equals
`normalizedAxis * sensitivity * pow(acceleration, elapsedSeconds) * 10`
(for any `pow` agreeing with `Math.pow` on the exponent-zero and base-one
cases the source short-circuits); with `acceleration = 1` the delta is
`normalizedAxis * sensitivity * 10` — independent of the clock and of the
recorded movement-start time, so identical deflections give identical
per-frame deltas with no growth. -/
theorem c7_delta_acceleration
    (powFn : ℚ → ℚ → ℚ) (m : AxisMapping) (gIdx : ℕ)
    (axes axes2 : List ℚ) (now now2 : ℚ) (refs refs2 : MouseRefs)
    (hpow0 : ∀ a, powFn a 0 = 1) (hpow1 : ∀ t, powFn 1 t = 1)
    (h1 : ¬(ratAbs (stickReadX m axes) < m.threshold ∧ ratAbs (stickReadY m axes) < m.threshold))
    (h2 : ¬(ratAbs (stickReadX m axes2) < m.threshold ∧ ratAbs (stickReadY m axes2) < m.threshold))
    (h3 : refs.pending (mouseStateKeyOf gIdx m.stickIndex) = false)
    (h3b : refs2.pending (mouseStateKeyOf gIdx m.stickIndex) = false)
    (hmono : ∀ s0, refs.startTimes (mouseStateKeyOf gIdx m.stickIndex) = some s0 → s0 ≤ now)
    (hmono2 : ∀ s0, refs2.startTimes (mouseStateKeyOf gIdx m.stickIndex) = some s0 → s0 ≤ now2) :
    ((mouseFrameStep powFn m gIdx axes axes2 now refs).2
      = some ⟨normalizeAxis (stickReadX m axes) m.threshold
                * m.sensitivity.getD DEFAULT_MOUSE_SENSITIVITY
                * powFn (m.acceleration.getD DEFAULT_MOUSE_ACCELERATION)
                    ((now - (refs.startTimes (mouseStateKeyOf gIdx m.stickIndex)).getD now) / 1000)
                * 10,
              normalizeAxis (stickReadY m axes) m.threshold
                * m.sensitivity.getD DEFAULT_MOUSE_SENSITIVITY
                * powFn (m.acceleration.getD DEFAULT_MOUSE_ACCELERATION)
                    ((now - (refs.startTimes (mouseStateKeyOf gIdx m.stickIndex)).getD now) / 1000)
                * 10⟩) ∧
    (m.acceleration.getD DEFAULT_MOUSE_ACCELERATION = 1 →
      (mouseFrameStep powFn m gIdx axes axes2 now refs).2
        = some ⟨normalizeAxis (stickReadX m axes) m.threshold
                  * m.sensitivity.getD DEFAULT_MOUSE_SENSITIVITY * 10,
                normalizeAxis (stickReadY m axes) m.threshold
                  * m.sensitivity.getD DEFAULT_MOUSE_SENSITIVITY * 10⟩) ∧
    (m.acceleration.getD DEFAULT_MOUSE_ACCELERATION = 1 →
      (mouseFrameStep powFn m gIdx axes axes2 now refs).2
        = (mouseFrameStep powFn m gIdx axes axes2 now2 refs2).2) := by
  have hdur : ∀ (nw : ℚ) (rf : MouseRefs),
      (∀ s0, rf.startTimes (mouseStateKeyOf gIdx m.stickIndex) = some s0 → s0 ≤ nw) →
      (if m.acceleration.getD DEFAULT_MOUSE_ACCELERATION ≠ 1
            ∧ (nw - (rf.startTimes (mouseStateKeyOf gIdx m.stickIndex)).getD nw) / 1000 > 0
         then powFn (m.acceleration.getD DEFAULT_MOUSE_ACCELERATION)
            ((nw - (rf.startTimes (mouseStateKeyOf gIdx m.stickIndex)).getD nw) / 1000)
         else 1)
        = powFn (m.acceleration.getD DEFAULT_MOUSE_ACCELERATION)
            ((nw - (rf.startTimes (mouseStateKeyOf gIdx m.stickIndex)).getD nw) / 1000) := by
    intro nw rf hm
    by_cases ha : m.acceleration.getD DEFAULT_MOUSE_ACCELERATION = 1
    · rw [ha, hpow1, if_neg (by simp [ha])]
    · by_cases hd : (nw - (rf.startTimes (mouseStateKeyOf gIdx m.stickIndex)).getD nw) / 1000 > 0
      · rw [if_pos ⟨ha, hd⟩]
      · have hd0 : (nw - (rf.startTimes (mouseStateKeyOf gIdx m.stickIndex)).getD nw) / 1000 = 0 := by
          cases hst : rf.startTimes (mouseStateKeyOf gIdx m.stickIndex) with
          | none => simp [hst]
          | some s0 =>
            have hle := hm s0 hst
            rw [hst] at hd
            simp only [Option.getD_some] at hd ⊢
            have hge : (nw - s0) / 1000 ≥ 0 := div_nonneg (by linarith) (by norm_num)
            linarith [not_lt.mp hd]
        rw [if_neg (by rw [hd0]; simp), hd0, hpow0]
  have hpart1 : (mouseFrameStep powFn m gIdx axes axes2 now refs).2
      = some ⟨normalizeAxis (stickReadX m axes) m.threshold
                * m.sensitivity.getD DEFAULT_MOUSE_SENSITIVITY
                * powFn (m.acceleration.getD DEFAULT_MOUSE_ACCELERATION)
                    ((now - (refs.startTimes (mouseStateKeyOf gIdx m.stickIndex)).getD now) / 1000)
                * 10,
              normalizeAxis (stickReadY m axes) m.threshold
                * m.sensitivity.getD DEFAULT_MOUSE_SENSITIVITY
                * powFn (m.acceleration.getD DEFAULT_MOUSE_ACCELERATION)
                    ((now - (refs.startTimes (mouseStateKeyOf gIdx m.stickIndex)).getD now) / 1000)
                * 10⟩ := by
    rw [mouseFrameStep_dispatch powFn m gIdx axes axes2 now refs h1 h2 h3]
    rw [hdur now refs hmono]
  refine ⟨hpart1, ?_, ?_⟩
  · intro ha
    rw [hpart1]
    simp [ha, hpow1, mul_one]
  · intro ha
    have hpart2 : (mouseFrameStep powFn m gIdx axes axes2 now2 refs2).2
        = some ⟨normalizeAxis (stickReadX m axes) m.threshold
                  * m.sensitivity.getD DEFAULT_MOUSE_SENSITIVITY
                  * powFn (m.acceleration.getD DEFAULT_MOUSE_ACCELERATION)
                      ((now2 - (refs2.startTimes (mouseStateKeyOf gIdx m.stickIndex)).getD now2) / 1000)
                  * 10,
                normalizeAxis (stickReadY m axes) m.threshold
                  * m.sensitivity.getD DEFAULT_MOUSE_SENSITIVITY
                  * powFn (m.acceleration.getD DEFAULT_MOUSE_ACCELERATION)
                      ((now2 - (refs2.startTimes (mouseStateKeyOf gIdx m.stickIndex)).getD now2) / 1000)
                  * 10⟩ := by
      rw [mouseFrameStep_dispatch powFn m gIdx axes axes2 now2 refs2 h1 h2 h3b]
      rw [hdur now2 refs2 hmono2]
    rw [hpart1, hpart2]
    simp [ha, hpow1]

/-- Witness for `c7_delta_acceleration`: full right deflection, neutral
acceleration, fresh refs. -/
theorem c7_delta_acceleration_witness :
    ((mouseFrameStep (fun _ _ => 1)
        ⟨0, .up, "Mouse", "Mouse", 1/2, .mouse, some 1, some 1, some false, some false⟩
        0 [1, 0] [1, 0] 5 initMouseRefs).2
      = some ⟨normalizeAxis (stickReadX ⟨0, .up, "Mouse", "Mouse", 1/2, .mouse, some 1, some 1, some false, some false⟩ [1, 0]) (1/2)
                * ((1 : ℚ))
                * (fun (_ _ : ℚ) => (1 : ℚ)) 1 ((5 - ((initMouseRefs.startTimes (mouseStateKeyOf 0 0)).getD 5)) / 1000)
                * 10,
              normalizeAxis (stickReadY ⟨0, .up, "Mouse", "Mouse", 1/2, .mouse, some 1, some 1, some false, some false⟩ [1, 0]) (1/2)
                * ((1 : ℚ))
                * (fun (_ _ : ℚ) => (1 : ℚ)) 1 ((5 - ((initMouseRefs.startTimes (mouseStateKeyOf 0 0)).getD 5)) / 1000)
                * 10⟩) := by
  have h := c7_delta_acceleration (fun _ _ => 1)
    ⟨0, .up, "Mouse", "Mouse", 1/2, .mouse, some 1, some 1, some false, some false⟩
    0 [1, 0] [1, 0] 5 5 initMouseRefs initMouseRefs
    (fun a => rfl) (fun t => rfl)
    (by norm_num [stickReadX, stickReadY, getStickAxes, ratAbs])
    (by norm_num [stickReadX, stickReadY, getStickAxes, ratAbs])
    rfl rfl
    (by intro s0 hs0; simp [initMouseRefs] at hs0)
    (by intro s0 hs0; simp [initMouseRefs] at hs0)
  exact h.1

/-- C8: per `(device, stick)` state key, a set pending flag makes the
frame drop its motion command (nothing is queued and the refs keep the
flag); a dispatched command is emitted only with the flag clear and sets
it; promise completion clears the flag on both the resolution and the
rejection path; and after completion an identical out-of-deadzone frame
dispatches again. -/
theorem c8_single_inflight_motion
    (powFn : ℚ → ℚ → ℚ) (m : AxisMapping) (gIdx : ℕ)
    (axes axes2 : List ℚ) (now now2 : ℚ) (refs : MouseRefs) (o : MoveOutcome)
    (h1 : ¬(ratAbs (stickReadX m axes) < m.threshold ∧ ratAbs (stickReadY m axes) < m.threshold))
    (h2 : ¬(ratAbs (stickReadX m axes2) < m.threshold ∧ ratAbs (stickReadY m axes2) < m.threshold))
    (hp : refs.pending (mouseStateKeyOf gIdx m.stickIndex) = true) :
    (∀ (axs axs2 : List ℚ) (nw : ℚ) (rf : MouseRefs),
      rf.pending (mouseStateKeyOf gIdx m.stickIndex) = true →
      (mouseFrameStep powFn m gIdx axs axs2 nw rf).2 = none) ∧
    (∀ (axs axs2 : List ℚ) (nw : ℚ) (rf : MouseRefs) (c : MouseCmd),
      (mouseFrameStep powFn m gIdx axs axs2 nw rf).2 = some c →
      (mouseFrameStep powFn m gIdx axs axs2 nw rf).1.pending (mouseStateKeyOf gIdx m.stickIndex) = true
        ∧ rf.pending (mouseStateKeyOf gIdx m.stickIndex) = false) ∧
    (∀ rf, (mouseMoveComplete (mouseStateKeyOf gIdx m.stickIndex) o rf).pending
        (mouseStateKeyOf gIdx m.stickIndex) = false) ∧
    ((mouseFrameStep powFn m gIdx axes axes2 now refs).2 = none ∧
      ((mouseFrameStep powFn m gIdx axes axes2 now2
          (mouseMoveComplete (mouseStateKeyOf gIdx m.stickIndex) o
            (mouseFrameStep powFn m gIdx axes axes2 now refs).1)).2).isSome = true) := by
  have hdrop : ∀ (axs axs2 : List ℚ) (nw : ℚ) (rf : MouseRefs),
      rf.pending (mouseStateKeyOf gIdx m.stickIndex) = true →
      (mouseFrameStep powFn m gIdx axs axs2 nw rf).2 = none := by
    intro axs axs2 nw rf hrf
    simp only [mouseFrameStep]
    split_ifs <;> simp_all
  have hclear : ∀ rf, (mouseMoveComplete (mouseStateKeyOf gIdx m.stickIndex) o rf).pending
      (mouseStateKeyOf gIdx m.stickIndex) = false := by
    intro rf
    cases o <;> simp [mouseMoveComplete]
  refine ⟨hdrop, ?_, hclear, hdrop axes axes2 now refs hp, ?_⟩
  · intro axs axs2 nw rf c hc
    simp only [mouseFrameStep] at hc ⊢
    split_ifs at hc with hA hB hC hD <;>
      first
        | (simp at hc
           done)
        | (rw [Bool.not_eq_true] at hC
           refine ⟨?_, hC⟩
           rw [if_neg hA, if_neg hB, if_neg (by rw [hC]; simp)]
           simp)
  · have hpend2 : (mouseMoveComplete (mouseStateKeyOf gIdx m.stickIndex) o
        (mouseFrameStep powFn m gIdx axes axes2 now refs).1).pending
        (mouseStateKeyOf gIdx m.stickIndex) = false := hclear _
    rw [mouseFrameStep_dispatch powFn m gIdx axes axes2 now2 _ h1 h2 hpend2]
    rfl

/-- Witness for `c8_single_inflight_motion`: full right deflection with
the pending flag initially set. -/
theorem c8_single_inflight_motion_witness :
    ((mouseFrameStep (fun _ _ => 1)
        ⟨0, .up, "Mouse", "Mouse", 1/2, .mouse, some 1, some 1, some false, some false⟩
        0 [1, 0] [1, 0] 5
        ⟨fun _ => none, fun z => decide (z = mouseStateKeyOf 0 0)⟩).2 = none ∧
      ((mouseFrameStep (fun _ _ => 1)
        ⟨0, .up, "Mouse", "Mouse", 1/2, .mouse, some 1, some 1, some false, some false⟩
        0 [1, 0] [1, 0] 6
        (mouseMoveComplete (mouseStateKeyOf 0 0) .resolved
          (mouseFrameStep (fun _ _ => 1)
            ⟨0, .up, "Mouse", "Mouse", 1/2, .mouse, some 1, some 1, some false, some false⟩
            0 [1, 0] [1, 0] 5
            ⟨fun _ => none, fun z => decide (z = mouseStateKeyOf 0 0)⟩).1)).2).isSome = true) :=
  (c8_single_inflight_motion (fun _ _ => 1)
    ⟨0, .up, "Mouse", "Mouse", 1/2, .mouse, some 1, some 1, some false, some false⟩
    0 [1, 0] [1, 0] 5 6
    ⟨fun _ => none, fun z => decide (z = mouseStateKeyOf 0 0)⟩ .resolved
    (by norm_num [stickReadX, stickReadY, getStickAxes, ratAbs])
    (by norm_num [stickReadX, stickReadY, getStickAxes, ratAbs])
    (by simp)).2.2.2
